import Mathlib

/-!
Verification of the profiling core of `datarobot_batch_scoring/utils.py`:
encoding/dialect investigation (`investigate_encoding_and_dialect`),
automatic chunk-size estimation (`auto_sampler`), and row chunking
(`iter_chunks`).

The Python code is shallowly embedded.  External libraries (chardet, the
csv sniffer and reader, codecs) are modelled as abstract inputs to the
embedded functions; the control flow, arithmetic and branching of the
repository's own code are translated line by line.  Machine integers are
`Nat`; Python's `int(a / b)` on the nonnegative integers occurring here
(all below 2^24) agrees exactly with `Nat` floor division `a / b`,
because the float64 quotient of two exactly-representable integers below
2^24 has error < 2^-29, far smaller than the ≥ 2^-24 distance of a
non-integer rational `a / b` from the nearest integer.
-/

namespace BatchScoring

/-- An unguarded Python runtime exception (not produced by a `ui.fatal`
guard in the code). -/
inductive PyExn where
  | zeroDivisionError
  | indexError
  | attributeError
  deriving DecidableEq, Repr

/-- A guarded fatal condition: one of the explicit `ui.fatal(...)` calls in
`utils.py` (each logs a message and terminates the process). -/
inductive Fatal where
  /-- "Input file ... is less than 10 chars long ..." (utils.py line 260) -/
  | fileTooShort
  /-- "... Check that you provided the correct delimiter ..." (line 264) -/
  | badDelimiterHint
  /-- "... Try giving hints with the --delimiter argument ..." (line 269) -/
  | sniffFailedNoHint
  /-- "--auto_sample failed to parse the csv file ..." (line 345) -/
  | autoSampleParseFail
  deriving DecidableEq, Repr

/-- How an embedded function can abort: a guarded `ui.fatal` call, or an
unguarded Python exception. -/
inductive Abort where
  | fatal (f : Fatal)
  | exn (e : PyExn)
  deriving DecidableEq, Repr

/-! ## `iter_chunks` (utils.py lines 197-205) -/

/-- The loop of `iter_chunks`: `chunk` is the accumulator list; each row is
appended, and the chunk is yielded as soon as `len(chunk) >= chunk_size`;
after the loop a nonempty leftover chunk is yielded. -/
def iterChunksGo {α : Type} (chunk_size : Nat) : List α → List α → List (List α)
  | chunk, [] => if chunk.isEmpty then [] else [chunk]
  | chunk, row :: rest =>
    if chunk.length + 1 ≥ chunk_size then
      (chunk ++ [row]) :: iterChunksGo chunk_size [] rest
    else
      iterChunksGo chunk_size (chunk ++ [row]) rest

/-- `iter_chunks(csvfile, chunk_size)` (utils.py lines 197-205), with the
lazy generator materialised as the list of yielded chunks. -/
def iter_chunks {α : Type} (csvfile : List α) (chunk_size : Nat) : List (List α) :=
  iterChunksGo chunk_size [] csvfile

/-! ## `investigate_encoding_and_dialect` (utils.py lines 242-289)

The sample is modelled by the byte widths of its decoded characters:
`char_widths : List Nat` has one entry per character of
`sample.decode(encoding)`, giving that character's encoded width in
bytes.  Hence `char_widths.length` is the decoded character count and
`char_widths.sum` is `len(sample)`, the raw byte length.  `chardet.detect`
and the csv sniffer are external, so the chardet encoding result and
whether `sniffer.sniff` succeeds are abstract inputs. -/

/-- `investigate_encoding_and_dialect(dataset, sep, ui)`.
`chardet_encoding` is `chardet.detect(sample)['encoding']` as a character
list (`none` models chardet returning no encoding, Python `None`);
`char_widths` models the sample as described above; `sniff_ok` is whether
`sniffer.sniff` succeeds; `has_hint` is whether `sep` was supplied.
Python's `str.lower()` on an encoding name is per-character lowercasing.
Returns the lower-cased encoding name.  Note
`encoding = chardet_result['encoding'].lower()` is executed before any
guard: on `None` it raises `AttributeError`. -/
def investigate_encoding_and_dialect (chardet_encoding : Option (List Char))
    (char_widths : List Nat) (sniff_ok : Bool) (has_hint : Bool) :
    Except Abort (List Char) :=
  match chardet_encoding with
  | none => .error (.exn .attributeError)
  | some enc =>
    let encoding := enc.map Char.toLower
    if sniff_ok then
      .ok encoding
    else if char_widths.sum < 10 then
      .error (.fatal .fileTooShort)
    else if has_hint then
      .error (.fatal .badDelimiterHint)
    else
      .error (.fatal .sniffFailedNoHint)

/-! ## `auto_sampler` (utils.py lines 292-361) -/

/-- `sample_size = int(0.5 * 1024 ** 2)` (utils.py line 301). -/
def sample_size : Nat := 524288

/-- `sample_size * 0.75` (utils.py line 311); `0.75 * 524288 = 393216`
exactly in float64, and the comparison with an integer is exact. -/
def small_threshold : Nat := 393216

/-- `chunk_size_goal = int(1.5 * 1024 ** 2)` (utils.py line 354). -/
def chunk_size_goal : Nat := 1572864

/-- `lines_per_sample = int(chunk_size_goal / avg_line) + 1`
(utils.py line 355), for `avg_line > 0`. -/
def lines_per_sample (avg_line : Nat) : Nat :=
  chunk_size_goal / avg_line + 1

/-- Python text-mode line iteration over the buffer (`for _ in buf`,
utils.py line 329): splits after every newline character, keeping the
newline at the end of its line; a trailing run without a newline is a
final line. -/
def pySplitLines : List Char → List (List Char)
  | [] => []
  | c :: cs =>
    if c = '\n' then
      [c] :: pySplitLines cs
    else
      match pySplitLines cs with
      | [] => [[c]]
      | l :: ls => (c :: l) :: ls

/-- The recorded `buf.tell()` cursor offsets (`line_pos`, utils.py
lines 328-331): after reading line `i`, the cursor is at `acc` plus the
total length of lines `0..i`. -/
def linePositions (acc : Nat) : List (List Char) → List Nat
  | [] => []
  | l :: ls => (acc + l.length) :: linePositions (acc + l.length) ls

/-- Python `line_pos[-3:]`: the last (up to) 3 recorded offsets
(utils.py line 340). -/
def lastThree (l : List Nat) : List Nat :=
  l.drop (l.length - 3)

/-- The row-boundary scan inside `auto_sampler` (utils.py lines 324-335):
count the lines of the buffer while recording cursor offsets, then
`buf.truncate(line_pos[-2])` and `file_lines -= 1`.  Python's
`line_pos[-2]` raises `IndexError` when fewer than two offsets were
recorded.  Returns the decremented line count and the truncated buffer. -/
def scan_sample_rows (text : List Char) : Except Abort (Nat × List Char) :=
  let lines := pySplitLines text
  let line_pos := linePositions 0 lines
  if h : 2 ≤ line_pos.length then
    .ok (lines.length - 1,
      text.take (line_pos.get ⟨line_pos.length - 2, by omega⟩))
  else
    .error (.exn .indexError)

/-- The outcome of the csv re-parse of the truncated buffer
(`for _ in reader`, utils.py lines 336-348).  The csv module is external:
`done rows` models a clean parse of `rows` csv rows; `fail rows pos`
models a `csv.Error` raised after `rows` rows with the cursor at byte
offset `pos` (`buf.tell()`). -/
inductive ParseOutcome where
  | done (rows : Nat)
  | fail (rows : Nat) (pos : Nat)
  deriving DecidableEq, Repr

/-- `auto_sampler(dataset, encoding, ui)` (utils.py lines 292-361).
`size_bytes` is the measured size of the decoded sample re-encoded to
UTF-8 (line 309); `text` is the decoded sample written into the buffer
(line 319); `parse` is the csv re-parse outcome.  Control flow follows
the source: the tiny-sample short-circuit returns 500; the line scan can
raise `IndexError`; a `csv.Error` is swallowed when the failure offset is
among the last three recorded line offsets, otherwise `ui.fatal`; then
`avg_line = int(size_bytes / csv_lines)` (unguarded: `csv_lines == 0`
raises `ZeroDivisionError`, as does `avg_line == 0` in the next
division) and the result is `int(chunk_size_goal / avg_line) + 1`. -/
def auto_sampler (size_bytes : Nat) (text : List Char) (parse : ParseOutcome) :
    Except Abort Nat :=
  if size_bytes < small_threshold then
    .ok 500
  else
    match scan_sample_rows text with
    | .error e => .error e
    | .ok _ =>
      let line_pos := linePositions 0 (pySplitLines text)
      let csv_lines? : Option Nat :=
        match parse with
        | .done rows => some rows
        | .fail rows pos =>
          if pos ∈ lastThree line_pos then some rows else none
      match csv_lines? with
      | none => .error (.fatal .autoSampleParseFail)
      | some csv_lines =>
        if csv_lines = 0 then
          .error (.exn .zeroDivisionError)
        else
          let avg_line := size_bytes / csv_lines
          if avg_line = 0 then
            .error (.exn .zeroDivisionError)
          else
            .ok (lines_per_sample avg_line)

/-- Modelled from the spec: the spec's own formula for the Chunk-Size
Estimator, `ceil(target_bytes_per_chunk / avg_row_size) + 1` with
`avg_row_size = encoded_sample_size / row_count` read as exact rational
arithmetic, so the ceiling is `⌈target * row_count / size⌉ + 1`.  Used
only to compare the spec's formula against the code's. -/
def spec_estimate_rows_per_chunk (encoded_sample_size row_count : Nat) : Nat :=
  (chunk_size_goal * row_count + encoded_sample_size - 1) / encoded_sample_size + 1

/-! ## Lemmas about `iter_chunks` -/

theorem iterChunksGo_flatten {α : Type} (cs : Nat) (rest : List α) :
    ∀ chunk, (iterChunksGo cs chunk rest).flatten = chunk ++ rest := by
  induction rest with
  | nil =>
    intro chunk
    by_cases h : chunk.isEmpty
    · simp [iterChunksGo, h, List.isEmpty_iff.mp h]
    · simp [iterChunksGo, h]
  | cons row rest ih =>
    intro chunk
    by_cases h : chunk.length + 1 ≥ cs
    · simp [iterChunksGo, h, ih]
    · simp [iterChunksGo, h, ih]

theorem iterChunksGo_mem {α : Type} (cs : Nat) (rest : List α) :
    ∀ chunk, chunk.length < cs →
      ∀ c ∈ iterChunksGo cs chunk rest, c.length ≤ cs ∧ c ≠ [] := by
  induction rest with
  | nil =>
    intro chunk hlt c hc
    unfold iterChunksGo at hc
    by_cases h : chunk.isEmpty
    · simp [h] at hc
    · rw [if_neg h] at hc
      rcases List.mem_singleton.mp hc with rfl
      exact ⟨Nat.le_of_lt hlt, fun he => h (by simp [he])⟩
  | cons row rest ih =>
    intro chunk hlt c hc
    unfold iterChunksGo at hc
    by_cases h : chunk.length + 1 ≥ cs
    · rw [if_pos h] at hc
      rcases List.mem_cons.mp hc with rfl | hc
      · refine ⟨by simp; omega, by simp⟩
      · exact ih [] (by simp; omega) c hc
    · rw [if_neg h] at hc
      exact ih (chunk ++ [row]) (by simp; omega) c hc

/-- `c ∈ (a :: l).dropLast` means `c` is the head (and the tail is
nonempty, so the head is not the last element) or `c` is in
`l.dropLast`. -/
theorem mem_dropLast_cons {α : Type} {c a : α} {l : List α}
    (h : c ∈ (a :: l).dropLast) : (c = a ∧ l ≠ []) ∨ c ∈ l.dropLast := by
  cases l with
  | nil => simp at h
  | cons b bs =>
    rw [List.dropLast_cons₂] at h
    rcases List.mem_cons.mp h with h | h
    · exact .inl ⟨h, by simp⟩
    · exact .inr h

theorem iterChunksGo_dropLast {α : Type} (cs : Nat) (rest : List α) :
    ∀ chunk, chunk.length < cs →
      ∀ c ∈ (iterChunksGo cs chunk rest).dropLast, c.length = cs := by
  induction rest with
  | nil =>
    intro chunk _ c hc
    unfold iterChunksGo at hc
    by_cases h : chunk.isEmpty
    · simp [h] at hc
    · rw [if_neg h] at hc
      simp at hc
  | cons row rest ih =>
    intro chunk hlt c hc
    unfold iterChunksGo at hc
    by_cases h : chunk.length + 1 ≥ cs
    · rw [if_pos h] at hc
      rcases mem_dropLast_cons hc with ⟨rfl, -⟩ | hc
      · simp; omega
      · exact ih [] (by simp; omega) c hc
    · rw [if_neg h] at hc
      exact ih (chunk ++ [row]) (by simp; omega) c hc

/-! ## Claim theorems: C2, C3 -/

/-- Claim C2: for every row source and every `chunk_size ≥ 1`,
`iter_chunks` emits chunks each of length ≤ `chunk_size`, every chunk
except possibly the final one has length exactly `chunk_size`, no emitted
chunk is empty, an empty source yields zero chunks, and `chunk_size = 3`
over `[A, B, C, D, E]` yields `[[A, B, C], [D, E]]`. -/
theorem iter_chunks_shape {α : Type} (rows : List α) (chunk_size : Nat)
    (h : 1 ≤ chunk_size) :
    (∀ c ∈ iter_chunks rows chunk_size, c.length ≤ chunk_size ∧ c ≠ []) ∧
    (∀ c ∈ (iter_chunks rows chunk_size).dropLast, c.length = chunk_size) ∧
    iter_chunks ([] : List α) chunk_size = [] ∧
    iter_chunks ['A', 'B', 'C', 'D', 'E'] 3 = [['A', 'B', 'C'], ['D', 'E']] := by
  refine ⟨fun c hc => iterChunksGo_mem chunk_size rows [] (by simpa using h) c hc,
          fun c hc => iterChunksGo_dropLast chunk_size rows [] (by simpa using h) c hc,
          ?_, by decide⟩
  unfold iter_chunks iterChunksGo
  rfl

/-- Witness for C2 at `chunk_size = 3`, rows `[A, B, C, D, E]`. -/
theorem iter_chunks_shape_witness :
    iter_chunks ['A', 'B', 'C', 'D', 'E'] 3 = [['A', 'B', 'C'], ['D', 'E']] :=
  (iter_chunks_shape (['A'] : List Char) 3 (by omega)).2.2.2

/-- Claim C3: for every row list and every `chunk_size ≥ 1`, concatenating
the chunks produced by `iter_chunks` in emission order yields exactly the
original row list. -/
theorem iter_chunks_flatten {α : Type} (rows : List α) (chunk_size : Nat)
    (_h : 1 ≤ chunk_size) :
    (iter_chunks rows chunk_size).flatten = rows := by
  simpa using iterChunksGo_flatten chunk_size rows []

/-- Witness for C3 at `chunk_size = 3`, rows `[A, B, C, D, E]`. -/
theorem iter_chunks_flatten_witness :
    (iter_chunks ['A', 'B', 'C', 'D', 'E'] 3).flatten = ['A', 'B', 'C', 'D', 'E'] :=
  iter_chunks_flatten ['A', 'B', 'C', 'D', 'E'] 3 (by omega)

/-! ## Lemmas about the line split and the recorded offsets -/

theorem pySplitLines_eq_nil {s : List Char} (h : pySplitLines s = []) : s = [] := by
  cases s with
  | nil => rfl
  | cons c cs =>
    exfalso
    unfold pySplitLines at h
    by_cases hc : c = '\n'
    · rw [if_pos hc] at h
      simp at h
    · rw [if_neg hc] at h
      rcases e : pySplitLines cs with _ | ⟨l, ls⟩ <;> rw [e] at h <;> simp at h

/-- Concatenating the split lines recovers the buffer. -/
theorem pySplitLines_flatten (s : List Char) : (pySplitLines s).flatten = s := by
  induction s with
  | nil => rfl
  | cons c cs ih =>
    unfold pySplitLines
    by_cases hc : c = '\n'
    · rw [if_pos hc]
      simp [ih]
    · rw [if_neg hc]
      rcases e : pySplitLines cs with _ | ⟨l, ls⟩
      · rw [pySplitLines_eq_nil e]
        simp
      · rw [e] at ih
        simp only [List.flatten_cons] at ih ⊢
        simp [ih]

/-- Every line of the buffer except the last contains a newline (the one
that terminated it). -/
theorem pySplitLines_dropLast_newline (s : List Char) :
    ∀ l ∈ (pySplitLines s).dropLast, '\n' ∈ l := by
  induction s with
  | nil => intro l hl; simp [pySplitLines] at hl
  | cons c cs ih =>
    intro l hl
    unfold pySplitLines at hl
    by_cases hc : c = '\n'
    · rw [if_pos hc] at hl
      rcases mem_dropLast_cons hl with ⟨rfl, -⟩ | hl
      · simp [hc]
      · exact ih l hl
    · rw [if_neg hc] at hl
      rcases e : pySplitLines cs with _ | ⟨t, ts⟩
      · rw [e] at hl
        simp at hl
      · rw [e] at hl
        rcases mem_dropLast_cons hl with ⟨rfl, hne⟩ | hl
        · have ht : '\n' ∈ t := by
            apply ih
            rw [e]
            cases ts with
            | nil => exact absurd rfl hne
            | cons u us =>
              rw [List.dropLast_cons₂]
              exact List.mem_cons_self _ _
          exact List.mem_cons_of_mem _ ht
        · apply ih
          rw [e]
          cases ts with
          | nil => simp at hl
          | cons u us =>
            rw [List.dropLast_cons₂]
            exact List.mem_cons_of_mem _ hl

/-- A list of lists, each containing `a`, flattens to a list with at least
one occurrence of `a` per element. -/
theorem length_le_count_flatten (a : Char) :
    ∀ ls : List (List Char), (∀ l ∈ ls, a ∈ l) →
      ls.length ≤ ls.flatten.count a := by
  intro ls
  induction ls with
  | nil => simp
  | cons l ls ih =>
    intro h
    simp only [List.flatten_cons, List.count_append, List.length_cons]
    have h1 : 0 < l.count a := List.count_pos_iff.mpr (h l (List.mem_cons_self _ _))
    have h2 := ih fun x hx => h x (List.mem_cons_of_mem _ hx)
    omega

theorem linePositions_length (acc : Nat) (ls : List (List Char)) :
    (linePositions acc ls).length = ls.length := by
  induction ls generalizing acc with
  | nil => rfl
  | cons l ls ih => simp [linePositions, ih]

/-- The offset recorded after line `i` is the total length of lines
`0..i` (plus the starting offset). -/
theorem linePositions_get (ls : List (List Char)) :
    ∀ (acc i : Nat) (h : i < (linePositions acc ls).length),
      (linePositions acc ls).get ⟨i, h⟩ =
        acc + ((ls.take (i + 1)).map List.length).sum := by
  induction ls with
  | nil => intro acc i h; simp [linePositions] at h
  | cons l ls ih =>
    intro acc i h
    cases i with
    | zero => simp [linePositions]
    | succ i =>
      have h' : i < (linePositions (acc + l.length) ls).length := by
        simp only [linePositions, List.length_cons] at h
        omega
      show (linePositions (acc + l.length) ls).get ⟨i, h'⟩ = _
      rw [ih (acc + l.length) i h']
      simp only [List.take_succ_cons, List.map_cons, List.sum_cons]
      omega

/-- Taking the flattened list up to the total length of the first `k`
blocks yields exactly the first `k` blocks, flattened. -/
theorem flatten_take_sum {α : Type} :
    ∀ (ls : List (List α)) (k : Nat),
      ls.flatten.take (((ls.take k).map List.length).sum) = (ls.take k).flatten := by
  intro ls
  induction ls with
  | nil => intro k; simp
  | cons l ls ih =>
    intro k
    cases k with
    | zero => simp
    | succ k =>
      simp only [List.take_succ_cons, List.map_cons, List.sum_cons, List.flatten_cons]
      rw [List.take_append, ih k]

/-- The row-boundary scan, on a buffer of at least two lines, reports one
line fewer and truncates the buffer to exactly all lines but the last. -/
theorem scan_sample_rows_eq (text : List Char)
    (h : 2 ≤ (pySplitLines text).length) :
    scan_sample_rows text =
      .ok ((pySplitLines text).length - 1,
        ((pySplitLines text).dropLast).flatten) := by
  have hlen := linePositions_length 0 (pySplitLines text)
  have hc : 2 ≤ (linePositions 0 (pySplitLines text)).length := by omega
  unfold scan_sample_rows
  rw [dif_pos hc]
  have hget := linePositions_get (pySplitLines text) 0
    ((linePositions 0 (pySplitLines text)).length - 2) (by omega)
  rw [hget]
  have hidx : (linePositions 0 (pySplitLines text)).length - 2 + 1 =
      (pySplitLines text).length - 1 := by omega
  rw [hidx, Nat.zero_add]
  have hft := pySplitLines_flatten text
  generalize pySplitLines text = ls at hft ⊢
  rw [← hft, flatten_take_sum, List.dropLast_eq_take]

/-! ## Claim theorem: C9 -/

/-- Claim C9: the row boundary scan discards exactly the final recorded
line of the buffer (truncating to the offset of the second-to-last
recorded cursor position), decrements the line count by one, and the
resulting row count never exceeds the number of newline-delimited lines
(newline occurrences) in the truncated buffer. -/
theorem scan_sample_rows_correct (text : List Char)
    (h : 2 ≤ (pySplitLines text).length) :
    scan_sample_rows text =
      .ok ((pySplitLines text).length - 1,
        ((pySplitLines text).dropLast).flatten) ∧
    (pySplitLines text).length - 1 ≤
      (((pySplitLines text).dropLast).flatten).count '\n' := by
  refine ⟨scan_sample_rows_eq text h, ?_⟩
  have hmem := pySplitLines_dropLast_newline text
  have hcount := length_le_count_flatten '\n' ((pySplitLines text).dropLast) hmem
  have hdl := List.length_dropLast (pySplitLines text)
  omega

/-! ## Path lemmas for `auto_sampler` -/

/-- On a buffer of fewer than two lines (so fewer than two recorded
offsets), the scan raises `IndexError`, which propagates out of
`auto_sampler` whenever the tiny-sample short-circuit was not taken. -/
theorem auto_sampler_scan_fail_eq (size_bytes : Nat) (text : List Char)
    (parse : ParseOutcome) (h1 : small_threshold ≤ size_bytes)
    (h2 : (pySplitLines text).length < 2) :
    auto_sampler size_bytes text parse = .error (.exn .indexError) := by
  have hlen := linePositions_length 0 (pySplitLines text)
  have hns : ¬ size_bytes < small_threshold := by omega
  have hc : ¬ 2 ≤ (linePositions 0 (pySplitLines text)).length := by omega
  simp only [auto_sampler, scan_sample_rows, if_neg hns, dif_neg hc]

/-- With zero parsed csv rows and the main path taken,
`int(size_bytes / csv_lines)` raises `ZeroDivisionError`. -/
theorem auto_sampler_done_zero_eq (size_bytes : Nat) (text : List Char)
    (h1 : small_threshold ≤ size_bytes) (h2 : 2 ≤ (pySplitLines text).length) :
    auto_sampler size_bytes text (.done 0) = .error (.exn .zeroDivisionError) := by
  have hns : ¬ size_bytes < small_threshold := by omega
  simp [auto_sampler, scan_sample_rows_eq text h2, hns]

/-- The successful main path of `auto_sampler`: the recommendation is
`int(chunk_size_goal / int(size_bytes / csv_lines)) + 1`. -/
theorem auto_sampler_done_eq (size_bytes : Nat) (text : List Char) (rows : Nat)
    (h1 : small_threshold ≤ size_bytes) (h2 : 2 ≤ (pySplitLines text).length)
    (h3 : rows ≠ 0) (h4 : size_bytes / rows ≠ 0) :
    auto_sampler size_bytes text (.done rows) =
      .ok (lines_per_sample (size_bytes / rows)) := by
  have hns : ¬ size_bytes < small_threshold := by omega
  simp [auto_sampler, scan_sample_rows_eq text h2, hns, h3, h4]

/-! ## Claim theorems: C1, C4, C5, C6, C10 -/

/-- Claim C1 counterexample: with the estimator on its main path and zero
parsed csv rows, the code raises an unguarded `ZeroDivisionError` from
`avg_line = int(size_bytes / csv_lines)` — not any guarded fatal
condition — contradicting "raises the explicit SizeEstimationGuardFailure
fatal condition, and never an unguarded divide-by-zero fault". -/
theorem auto_sampler_zero_rows_cex :
    auto_sampler 393216 ("ab\ncd\nef".toList) (.done 0) =
      .error (.exn .zeroDivisionError) := rfl

/-- Claim C1 (amended): for every sample and target, `row_count == 0`
reaching the average-row-size computation raises an unguarded
`ZeroDivisionError`; there is no explicit guard for zero rows in the
code. -/
theorem auto_sampler_zero_rows_unguarded (size_bytes : Nat) (text : List Char)
    (h1 : small_threshold ≤ size_bytes) (h2 : 2 ≤ (pySplitLines text).length) :
    auto_sampler size_bytes text (.done 0) = .error (.exn .zeroDivisionError) :=
  auto_sampler_done_zero_eq size_bytes text h1 h2

/-- Witness for C1 (amended) at a concrete sample. -/
theorem auto_sampler_zero_rows_unguarded_witness :
    small_threshold ≤ 393216 ∧ 2 ≤ (pySplitLines ("ab\ncd\nef".toList)).length ∧
    auto_sampler 393216 ("ab\ncd\nef".toList) (.done 0) =
      .error (.exn .zeroDivisionError) :=
  ⟨by decide, by decide,
    auto_sampler_zero_rows_unguarded 393216 ("ab\ncd\nef".toList) (by decide) (by decide)⟩

/-- Claim C4 counterexample: at `size_bytes = 400000`, `row_count = 7`
(main path, sample not judged too small), the code recommends 28 rows,
while the spec's formula `ceil(target / (size / rows)) + 1` (exact
rational average) gives 29. -/
theorem auto_sampler_formula_cex :
    auto_sampler 400000 ("ab\ncd\nef".toList) (.done 7) = .ok 28 ∧
    spec_estimate_rows_per_chunk 400000 7 = 29 ∧
    auto_sampler 400000 ("ab\ncd\nef".toList) (.done 7) ≠
      .ok (spec_estimate_rows_per_chunk 400000 7) := by
  have h1 : auto_sampler 400000 ("ab\ncd\nef".toList) (.done 7) = .ok 28 := rfl
  have h2 : spec_estimate_rows_per_chunk 400000 7 = 29 := rfl
  refine ⟨h1, h2, ?_⟩
  rw [h1, h2]
  simp

/-- Claim C4 (amended): when the estimator does not short-circuit and
`row_count > 0`, the recommendation is
`int(target_bytes_per_chunk / int(size_bytes / row_count)) + 1` — both
divisions truncating — rather than the ceiling of the exact ratio. -/
theorem auto_sampler_truncating_formula (size_bytes : Nat) (text : List Char)
    (rows : Nat) (h1 : small_threshold ≤ size_bytes)
    (h2 : 2 ≤ (pySplitLines text).length) (h3 : rows ≠ 0)
    (h4 : size_bytes / rows ≠ 0) :
    auto_sampler size_bytes text (.done rows) =
      .ok (chunk_size_goal / (size_bytes / rows) + 1) :=
  auto_sampler_done_eq size_bytes text rows h1 h2 h3 h4

/-- Witness for C4 (amended) at `size_bytes = 400000`, `row_count = 7`. -/
theorem auto_sampler_truncating_formula_witness :
    auto_sampler 400000 ("ab\ncd\nef".toList) (.done 7) =
      .ok (chunk_size_goal / (400000 / 7) + 1) :=
  auto_sampler_truncating_formula 400000 ("ab\ncd\nef".toList) 7
    (by decide) (by decide) (by decide) (by decide)

/-- Claim C5: a sample whose measured re-encoded size is below 75% of the
size-estimation sample ceiling (`393216 = 0.75 * 524288` bytes) yields
exactly 500 recommended rows, regardless of the sample's content or the
csv parse outcome. -/
theorem auto_sampler_small_default (size_bytes : Nat) (text : List Char)
    (parse : ParseOutcome) (h : size_bytes < small_threshold) :
    auto_sampler size_bytes text parse = .ok 500 := by
  unfold auto_sampler
  rw [if_pos h]

/-- Witness for C5 at a concrete tiny sample. -/
theorem auto_sampler_small_default_witness :
    (100 : Nat) < small_threshold ∧
    auto_sampler 100 ("x".toList) (.done 3) = .ok 500 :=
  ⟨by decide, auto_sampler_small_default 100 ("x".toList) (.done 3) (by decide)⟩

/-- Claim C6: for a fixed `target_bytes_per_chunk`, the recommendation is
monotonically non-increasing in the average row size: for two
non-short-circuiting successful runs with positive average row sizes
`s1 / r1 ≤ s2 / r2`, the first run's recommendation is ≥ the second's. -/
theorem auto_sampler_monotone_avg (text : List Char)
    (s1 r1 s2 r2 o1 o2 : Nat)
    (hs1 : small_threshold ≤ s1) (hs2 : small_threshold ≤ s2)
    (hpos : 0 < s1 / r1) (havg : s1 / r1 ≤ s2 / r2)
    (e1 : auto_sampler s1 text (.done r1) = .ok o1)
    (e2 : auto_sampler s2 text (.done r2) = .ok o2) :
    o2 ≤ o1 := by
  by_cases hl : 2 ≤ (pySplitLines text).length
  · have hr1 : r1 ≠ 0 := by
      rintro rfl
      rw [auto_sampler_done_zero_eq s1 text hs1 hl] at e1
      exact absurd e1 (by simp)
    have hr2 : r2 ≠ 0 := by
      rintro rfl
      rw [auto_sampler_done_zero_eq s2 text hs2 hl] at e2
      exact absurd e2 (by simp)
    have ha1 : s1 / r1 ≠ 0 := by omega
    have ha2 : s2 / r2 ≠ 0 := by omega
    rw [auto_sampler_done_eq s1 text r1 hs1 hl hr1 ha1] at e1
    rw [auto_sampler_done_eq s2 text r2 hs2 hl hr2 ha2] at e2
    simp only [Except.ok.injEq] at e1 e2
    rw [← e1, ← e2]
    unfold lines_per_sample
    have hdiv := Nat.div_le_div_left (a := chunk_size_goal) havg hpos
    omega
  · rw [auto_sampler_scan_fail_eq s1 text _ hs1 (by omega)] at e1
    exact absurd e1 (by simp)

/-- Witness for C6: two runs over the same buffer with average row sizes
78643 ≤ 98304 recommend 21 and 17 rows respectively. -/
theorem auto_sampler_monotone_avg_witness :
    auto_sampler 393216 ("ab\ncd\nef".toList) (.done 5) = .ok 21 ∧
    auto_sampler 393216 ("ab\ncd\nef".toList) (.done 4) = .ok 17 ∧
    (17 : Nat) ≤ 21 :=
  ⟨rfl, rfl,
    auto_sampler_monotone_avg ("ab\ncd\nef".toList) 393216 5 393216 4 21 17
      (by decide) (by decide) (by decide) (by decide) rfl rfl⟩

/-- Claim C10: for every non-tiny sample (one that passes the
75%-of-ceiling size check) whose buffer contains fewer than two lines,
`auto_sampler` raises an unguarded `IndexError` from `line_pos[-2]`,
rather than any guarded fatal condition. -/
theorem auto_sampler_few_lines_index_error (size_bytes : Nat) (text : List Char)
    (parse : ParseOutcome) (h1 : small_threshold ≤ size_bytes)
    (h2 : (pySplitLines text).length < 2) :
    auto_sampler size_bytes text parse = .error (.exn .indexError) :=
  auto_sampler_scan_fail_eq size_bytes text parse h1 h2

/-- Witness for C10: a 393216-byte measured sample whose buffer is a
single line without a newline. -/
theorem auto_sampler_few_lines_index_error_witness :
    small_threshold ≤ 393216 ∧ (pySplitLines ("abc".toList)).length < 2 ∧
    auto_sampler 393216 ("abc".toList) (.done 5) = .error (.exn .indexError) :=
  ⟨by decide, by decide,
    auto_sampler_few_lines_index_error 393216 ("abc".toList) (.done 5)
      (by decide) (by decide)⟩

/-! ## Claim theorems: C7, C8 -/

/-- Claim C7 counterexample: a sample of five characters, each two bytes
wide (e.g. utf-16), has a decoded length of 5 < 10 characters but a byte
length of 10; on sniff failure with a delimiter hint supplied, the code
raises the wrong-hint fatal, not the sample-too-small fatal, because the
guard tests `len(sample) < 10` on the raw bytes. -/
theorem investigate_decoded_length_cex :
    ([2, 2, 2, 2, 2] : List Nat).length < 10 ∧
    investigate_encoding_and_dialect (some ("utf-16".toList)) [2, 2, 2, 2, 2]
      false true = .error (.fatal .badDelimiterHint) :=
  ⟨by decide, rfl⟩

/-- Claim C7 (amended): when dialect sniffing fails and the sample's raw
byte length (not its decoded character count) is under 10, the code
raises the sample-too-small fatal, regardless of whether a delimiter hint
was supplied. -/
theorem investigate_byte_length_guard (enc : List Char) (char_widths : List Nat)
    (has_hint : Bool) (h : char_widths.sum < 10) :
    investigate_encoding_and_dialect (some enc) char_widths false has_hint =
      .error (.fatal .fileTooShort) := by
  simp [investigate_encoding_and_dialect, h]

/-- Witness for C7 (amended): a three-byte sample with a hint supplied. -/
theorem investigate_byte_length_guard_witness :
    ([1, 1, 1] : List Nat).sum < 10 ∧
    investigate_encoding_and_dialect (some ("ascii".toList)) [1, 1, 1] false true =
      .error (.fatal .fileTooShort) :=
  ⟨by decide, investigate_byte_length_guard ("ascii".toList) [1, 1, 1] true (by decide)⟩

/-- Claim C8 counterexample: when chardet yields no encoding guess
(Python `None`), the code evaluates `None.lower()` and raises an
unguarded `AttributeError` — there is no explicitly guarded fatal
`DetectionFailure`. -/
theorem investigate_none_encoding_cex :
    investigate_encoding_and_dialect none [1, 1, 1, 1, 1, 1, 1, 1, 1, 1] true false =
      .error (.exn .attributeError) := rfl

/-- Claim C8 (amended): encoding detection returns the chardet name
lower-cased whenever it returns at all, but when detection yields no
usable result the code raises an unguarded `AttributeError` from
`None.lower()` rather than a guarded fatal condition. -/
theorem investigate_encoding_lower_or_attr (enc : List Char) (char_widths : List Nat)
    (sniff_ok has_hint : Bool) (e : List Char)
    (hok : investigate_encoding_and_dialect (some enc) char_widths sniff_ok has_hint =
      .ok e) :
    e = enc.map Char.toLower ∧
    investigate_encoding_and_dialect none char_widths sniff_ok has_hint =
      .error (.exn .attributeError) := by
  refine ⟨?_, rfl⟩
  unfold investigate_encoding_and_dialect at hok
  cases sniff_ok with
  | true =>
    simp at hok
    exact hok.symm
  | false =>
    simp only [Bool.false_eq_true, if_false] at hok
    split at hok
    · exact Except.noConfusion hok
    · split at hok
      · exact Except.noConfusion hok
      · exact Except.noConfusion hok

/-- Witness for C8 (amended): chardet's "UTF-8" comes back lower-cased. -/
theorem investigate_encoding_lower_or_attr_witness :
    "utf-8".toList = "UTF-8".toList.map Char.toLower ∧
    investigate_encoding_and_dialect none [1] true false =
      .error (.exn .attributeError) :=
  investigate_encoding_lower_or_attr ("UTF-8".toList) [1] true false
    ("utf-8".toList) rfl

/-- Witness for C9 on the buffer `"ab\ncd\nef"` (three lines, the last
presumed partial). -/
theorem scan_sample_rows_correct_witness :
    scan_sample_rows ("ab\ncd\nef".toList) =
      .ok ((pySplitLines ("ab\ncd\nef".toList)).length - 1,
        ((pySplitLines ("ab\ncd\nef".toList)).dropLast).flatten) ∧
    (pySplitLines ("ab\ncd\nef".toList)).length - 1 ≤
      (((pySplitLines ("ab\ncd\nef".toList)).dropLast).flatten).count '\n' :=
  scan_sample_rows_correct ("ab\ncd\nef".toList) (by decide)

end BatchScoring
